import Mathlib

/-!
Verification development for the libcacard NSS card emulator
(`src/vcard_emul_nss.c`).  The C functions relevant to the claims are
shallowly embedded below: provider (NSS) primitives become explicit
function-valued fields of small environment structures, in-place buffer
mutation becomes construction of the buffer that results, and the
sequence of external calls a function performs (logout, authenticate,
card insert, mirror) is recorded as an explicit event list.
-/

/-- The 7816 status codes surfaced by this file, mirroring the
`vcard_7816_status_t` constants used in `vcard_emul_nss.c`. -/
inductive Vcard7816Status where
  | success
  | conditionNotSatisfied
  | dataInvalid
  | memoryFailure
  | generalError
  | changeError
  deriving DecidableEq, Repr

/-- The NSS error codes distinguished by `vcard_emul_map_error`
(`vcard_emul_nss.c:192-215`).  `other` stands for any code outside the
switch. -/
inductive NssError where
  | tokenNotLoggedIn
  | badData
  | outputLen
  | inputLen
  | invalidArgs
  | invalidAlgorithm
  | noKey
  | invalidKey
  | decryptionDisallowed
  | pkcs11GeneralError
  | noMemory
  | other
  deriving DecidableEq, Repr

/-- Embedding of `vcard_emul_map_error` (`vcard_emul_nss.c:192-215`). -/
def vcard_emul_map_error : NssError → Vcard7816Status
  | .tokenNotLoggedIn => .conditionNotSatisfied
  | .badData => .dataInvalid
  | .outputLen => .dataInvalid
  | .inputLen => .dataInvalid
  | .invalidArgs => .dataInvalid
  | .invalidAlgorithm => .dataInvalid
  | .noKey => .dataInvalid
  | .invalidKey => .dataInvalid
  | .decryptionDisallowed => .dataInvalid
  | .pkcs11GeneralError => .dataInvalid
  | .noMemory => .memoryFailure
  | .other => .changeError

/-- Embedding of `VCardEmulTriState` (`vcard_emul_nss.c:48-52`): the
memoized raw-RSA capability flag of a key.  `VCardEmulFalse` means the
raw operation worked (SupportsRawOp), `VCardEmulTrue` means it must be
emulated (RequiresPaddingEmulation). -/
inductive VCardEmulTriState where
  | VCardEmulUnknown
  | VCardEmulFalse
  | VCardEmulTrue
  deriving DecidableEq, Repr

/-- The provider-facing environment of `vcard_emul_rsa_op`
(`vcard_emul_nss.c:240-396`).  Each NSS primitive the function calls is
a field; a primitive that fails returns `none` and the corresponding
error field gives the `PORT_GetError` value observed afterwards:
* `nss_emul_init` - the global init flag (`vcard_emul_nss.c:99`);
* `priv_key_found` - whether the `key == NULL` guard passes and
  `PK11_FindPrivateKeyFromCert` finds the private key;
* `signature_len` - `PK11_SignatureLen(priv_key)`;
* `does_mechanism_x509` - `PK11_DoesMechanism(slot, CKM_RSA_X_509)`;
* `priv_decrypt_raw` - `PK11_PrivDecryptRaw`, returning the bytes it
  writes into the scratch buffer `bp`;
* `sign` - `PK11_Sign` applied to the hash bytes;
* `priv_decrypt_pkcs1` - `PK11_PrivDecryptPKCS1`, returning the
  recovered payload. -/
structure RsaEnv where
  nss_emul_init : Bool
  priv_key_found : Bool
  signature_len : Nat
  does_mechanism_x509 : Bool
  priv_decrypt_raw : List Nat → Option (List Nat)
  raw_error : NssError
  sign : List Nat → Option (List Nat)
  sign_error : NssError
  priv_decrypt_pkcs1 : List Nat → Option (List Nat)
  pkcs1_error : NssError

/-- `memcpy(dst, src, n)` on whole-buffer lists: the first `n` bytes of
`src` replace the first `n` bytes of `dst`. -/
def memcpyList (dst src : List Nat) (n : Nat) : List Nat :=
  src.take n ++ dst.drop n

/-- The scan at `vcard_emul_nss.c:313-319`: skip the run of `0xff`
bytes; if the first byte that is not `0xff` exists and is `0`, return
the bytes after it (the hash that gets signed), else `none`. -/
def pkcs1StripFF : List Nat → Option (List Nat)
  | [] => none
  | b :: rest =>
    if b = 0xff then pkcs1StripFF rest
    else if b = 0 then some rest else none

/-- The PKCS number 1 signature-block test of `vcard_emul_nss.c:310-319`:
byte 0 is `0x00`, byte 1 is `0x01`, then a (possibly empty) run of
`0xff`, then a `0x00`; on success returns the trailing hash bytes. -/
def pkcs1SigPayload : List Nat → Option (List Nat)
  | 0 :: 1 :: rest => pkcs1StripFF rest
  | _ => none

/-- Embedding of the deciphering fallback of `vcard_emul_rsa_op`
(`vcard_emul_nss.c:351-389`): PKCS number 1 private decrypt, the
`pad_len < 4` guard, and the in-place reconstruction
`00 02 <pad_len-3 bytes of 0x03> 00 <payload>`.
Result is (status, buffer after the call, tri-state after the call). -/
def rsaOpDecrypt (env : RsaEnv) (failedX509 : VCardEmulTriState) (buffer : List Nat) :
    Vcard7816Status × List Nat × VCardEmulTriState :=
  match env.priv_decrypt_pkcs1 buffer with
  | none => (vcard_emul_map_error env.pkcs1_error, buffer, failedX509)
  | some bp =>
    let pad_len := buffer.length - bp.length
    if pad_len < 4 then (.generalError, buffer, failedX509)
    else (.success, 0 :: 2 :: (List.replicate (pad_len - 3) 3 ++ 0 :: bp), .VCardEmulTrue)

/-- Embedding of the PKCS number 1 signature branch of
`vcard_emul_rsa_op` (`vcard_emul_nss.c:308-350`): if the buffer looks
like a signature block, sign the trailing hash bytes and memoize
`failedX509 = VCardEmulTrue`; otherwise fall through to the
deciphering fallback. -/
def rsaOpPkcs (env : RsaEnv) (failedX509 : VCardEmulTriState) (buffer : List Nat) :
    Vcard7816Status × List Nat × VCardEmulTriState :=
  match pkcs1SigPayload buffer with
  | some hash =>
    match env.sign hash with
    | some sig => (.success, memcpyList buffer sig sig.length, .VCardEmulTrue)
    | none => (vcard_emul_map_error env.sign_error, buffer, failedX509)
  | none => rsaOpDecrypt env failedX509 buffer

/-- Embedding of the raw X509 attempt of `vcard_emul_rsa_op`
(`vcard_emul_nss.c:279-307`): attempted only when the tri-state is not
`VCardEmulTrue` and the slot advertises `CKM_RSA_X_509`; on success the
output replaces the buffer and the tri-state becomes `VCardEmulFalse`;
on failure with tri-state `VCardEmulFalse` the mapped provider error is
returned, otherwise control falls through to the PKCS paths. -/
def rsaOpRaw (env : RsaEnv) (failedX509 : VCardEmulTriState) (buffer : List Nat) :
    Vcard7816Status × List Nat × VCardEmulTriState :=
  if failedX509 ≠ .VCardEmulTrue ∧ env.does_mechanism_x509 then
    match env.priv_decrypt_raw buffer with
    | some bp => (.success, memcpyList buffer bp bp.length, .VCardEmulFalse)
    | none =>
      if failedX509 = .VCardEmulFalse then
        (vcard_emul_map_error env.raw_error, buffer, failedX509)
      else rsaOpPkcs env failedX509 buffer
  else rsaOpPkcs env failedX509 buffer

/-- Embedding of `vcard_emul_rsa_op` (`vcard_emul_nss.c:240-396`).
Takes the provider environment, the current tri-state of the key and
the input buffer; returns the status, the buffer contents on return and
the tri-state on return.  The first guard models the
`!nss_emul_init || key == NULL` check together with the
`PK11_FindPrivateKeyFromCert` failure check (both return
ConditionNotSatisfied); the second is the
`buffer_size != PK11_SignatureLen` check. -/
def vcard_emul_rsa_op (env : RsaEnv) (failedX509 : VCardEmulTriState) (buffer : List Nat) :
    Vcard7816Status × List Nat × VCardEmulTriState :=
  if ¬env.nss_emul_init ∨ ¬env.priv_key_found then
    (.conditionNotSatisfied, buffer, failedX509)
  else if buffer.length ≠ env.signature_len then
    (.dataInvalid, buffer, failedX509)
  else rsaOpRaw env failedX509 buffer

/-- One leading `0xff` run of a byte list turned into zeros, leaving
everything from the first byte that is not `0xff` unchanged. -/
def zeroLeadingFF : List Nat → List Nat
  | [] => []
  | b :: rest => if b = 0xff then 0 :: zeroLeadingFF rest else b :: rest

/-- Embedding of the loop at `vcard_emul_nss.c:432-434`: every byte of
the maximal trailing `0xff` run of the PIN is overwritten with `0`
(CAC expanded-PIN handling). -/
def stripTrailingFF (l : List Nat) : List Nat :=
  (zeroLeadingFF l.reverse).reverse

/-- The external calls `vcard_emul_login` performs, in order:
the forced `vcard_emul_logout`, the `PK11_Authenticate` call with the
contents of the heap PIN buffer, and the `memset` wiping that heap
buffer (recorded with the contents the buffer has afterwards). -/
inductive LoginEvent where
  | logoutCall
  | authenticateCall (pin_string : List Nat)
  | zeroizeCall (pin_string : List Nat)
  deriving DecidableEq, Repr

/-- Environment of `vcard_emul_login` (`vcard_emul_nss.c:410-449`):
the global init flag and the outcome of `PK11_Authenticate` as a
function of the submitted PIN-buffer contents. -/
structure LoginEnv where
  nss_emul_init : Bool
  authenticate_ok : List Nat → Bool

/-- Embedding of `vcard_emul_login` (`vcard_emul_nss.c:410-449`).
The C function allocates a heap copy `pin_string` of the caller PIN
plus a trailing `0` terminator, zeroes the trailing `0xff` run of the
copied bytes, calls `vcard_emul_logout`, calls `PK11_Authenticate` on
the copy, wipes the copy with `memset` regardless of the outcome and
frees it.  The result is (status, ordered event list, caller PIN
buffer contents on return); the caller buffer is only ever read
(`memcpy` source), so it is returned unchanged. -/
def vcard_emul_login (env : LoginEnv) (pin : List Nat) :
    Vcard7816Status × List LoginEvent × List Nat :=
  if ¬env.nss_emul_init then
    (.conditionNotSatisfied, [], pin)
  else
    let pin_string := stripTrailingFF pin ++ [0]
    let auth_ok := env.authenticate_ok pin_string
    ((if auth_ok then .success else .conditionNotSatisfied),
     [LoginEvent.logoutCall,
      LoginEvent.authenticateCall pin_string,
      LoginEvent.zeroizeCall (List.replicate (pin.length + 1) 0)],
     pin)

/-- Modelled from the spec: the numeric 7816 status word for
ConditionNotSatisfied.  The constant lives in `card_7816t.h`, which is
not part of this repository snapshot; the spec calls the status codes
protocol-defined constants, and ISO 7816 assigns 0x6985 to
"conditions of use not satisfied". -/
def VCARD7816_STATUS_ERROR_CONDITION_NOT_SATISFIED_SW : Nat := 0x6985

/-- Embedding of `vcard_emul_is_logged_in` (`vcard_emul_nss.c:451-475`):
returns an `int` that is the ConditionNotSatisfied status word when the
subsystem is uninitialized, `1` when the slot needs no login or
`PK11_IsLoggedIn` holds, else `0`. -/
def vcard_emul_is_logged_in (nss_emul_init : Bool) (need_login : Bool)
    (pk11_is_logged_in : Bool) : Nat :=
  if ¬nss_emul_init then VCARD7816_STATUS_ERROR_CONDITION_NOT_SATISFIED_SW
  else if need_login = false then 1
  else if pk11_is_logged_in then 1 else 0

/-- Embedding of `VReaderEmulStruct` (`vcard_emul_nss.c:63-70`), the
per-reader emulation state the claims touch: the presence flag, the
slot-generation series counter and the optional cached soft card
(cards are abstracted as numeric identities). -/
structure VReaderEmul where
  present : Bool
  series : Int
  saved_vcard : Option Nat
  deriving DecidableEq, Repr

/-- External calls of the hot-plug loop and of forced insertion, in
order: `vreader_insert_card` (with `none` for the NULL card, i.e. a
removal signal) and `vcard_emul_mirror_card` (rebuilding a card from
the slot). -/
inductive ReaderEvent where
  | insertCard (vcard : Option Nat)
  | mirrorCall
  deriving DecidableEq, Repr

/-- Embedding of the present-slot branch of `vcard_emul_event_thread`
(`vcard_emul_nss.c:853-867`) for a slot that matches an existing
reader and reports present: `slot_series` is `PK11_GetSlotSeries`,
`mirrored` the card `vcard_emul_mirror_card` would build.  Returns the
updated reader state and the ordered list of external calls. -/
def vcard_emul_event_thread_present (slot_series : Int) (mirrored : Option Nat)
    (r : VReaderEmul) : VReaderEmul × List ReaderEvent :=
  let events :=
    if slot_series ≠ r.series then
      (if r.present then [ReaderEvent.insertCard none] else [])
        ++ [ReaderEvent.mirrorCall, ReaderEvent.insertCard mirrored]
    else []
  ({ r with series := slot_series, present := true }, events)

/-- The `VCardEmulError` results used by forced presence control
(`vcard_emul.h` via `vcard_emul_nss.c:937-976`). -/
inductive VCardEmulError where
  | ok
  | fail
  deriving DecidableEq, Repr

/-- Embedding of `vcard_emul_force_card_insert`
(`vcard_emul_nss.c:950-976`): fails when uninitialized or a card is
present; a reader with a cached soft card reinserts a reference to
exactly that card; a hardware reader requires `PK11_IsPresent`, else
fails without touching the reader, and otherwise re-mirrors and
inserts.  Returns (result, ordered external calls, reader state on
return). -/
def vcard_emul_force_card_insert (nss_emul_init : Bool) (card_present : Bool)
    (slot_is_present : Bool) (mirrored : Option Nat) (r : VReaderEmul) :
    VCardEmulError × List ReaderEvent × VReaderEmul :=
  if ¬nss_emul_init ∨ card_present then (.fail, [], r)
  else
    match r.saved_vcard with
    | some saved => (.ok, [ReaderEvent.insertCard (some saved)], r)
    | none =>
      if ¬slot_is_present then (.fail, [], r)
      else (.ok, [ReaderEvent.mirrorCall, ReaderEvent.insertCard mirrored], r)

/-- Embedding of the `SECITEM_CompareItem` three-way binary comparison
NSS applies to the `CKA_ID` identifier attributes
(`vcard_emul_nss.c:774`): bytewise comparison, a strict prefix
comparing less. -/
def secitemCompare : List Nat → List Nat → Ordering
  | [], [] => .eq
  | [], _ :: _ => .lt
  | _ :: _, [] => .gt
  | a :: as, b :: bs =>
    if a < b then .lt else if b < a then .gt else secitemCompare as bs

/-- One certificate object enumerated by `PK11_FindGenericObjects` in
`vcard_emul_mirror_card` (`vcard_emul_nss.c:741-789`): the outcomes of
reading `CKA_VALUE` (raw certificate bytes), reading `CKA_ID` (the
identifier attribute) and building the floating temp certificate; a
`none`/`false` makes the loop skip the object. -/
structure MirrorObj where
  read_value : Option (List Nat)
  read_id : Option (List Nat)
  temp_cert_ok : Bool
  deriving DecidableEq, Repr

/-- The (identifier, certificate-bytes) pair an enumerated object
contributes, or `none` when any of its reads fails and the loop at
`vcard_emul_nss.c:742-789` skips it with `continue`. -/
def mirror_entry (o : MirrorObj) : Option (List Nat × List Nat) :=
  match o.read_value, o.read_id with
  | some derCert, some certId =>
    if o.temp_cert_ok then some (certId, derCert) else none
  | _, _ => none

/-- Embedding of the insertion loop at `vcard_emul_nss.c:773-787`: the
new entry is placed before the first already-stored entry whose
identifier compares greater (`SECITEM_CompareItem(id, ids[i]) <
SECEqual`), shifting the rest. -/
def mirror_insert (x : List Nat × List Nat) :
    List (List Nat × List Nat) → List (List Nat × List Nat)
  | [] => [x]
  | y :: ys =>
    if secitemCompare x.1 y.1 = .lt then x :: y :: ys else y :: mirror_insert x ys

/-- Embedding of the array-building part of `vcard_emul_mirror_card`
(`vcard_emul_nss.c:741-789`): fold over the enumeration order,
skipping unreadable objects and inserting each remaining entry at its
comparison-determined position. -/
def vcard_emul_mirror_card (objs : List MirrorObj) : List (List Nat × List Nat) :=
  objs.foldl
    (fun acc o =>
      match mirror_entry o with
      | some e => mirror_insert e acc
      | none => acc) []

/-- Strict ascending identifier order between two built entries. -/
def mirrorKeyLt (x y : List Nat × List Nat) : Prop :=
  secitemCompare x.1 y.1 = .lt

/-- Non-descending identifier order between two built entries. -/
def mirrorKeyLe (x y : List Nat × List Nat) : Prop :=
  secitemCompare x.1 y.1 ≠ .gt

/-- Claim C2: with an initialized subsystem and a resolvable private
key, a buffer whose length differs from the provider signature length
makes `vcard_emul_rsa_op` return DataInvalid with the buffer (and the
tri-state) completely unmodified. -/
theorem rsa_op_length_mismatch (env : RsaEnv) (fx : VCardEmulTriState) (buffer : List Nat)
    (hinit : env.nss_emul_init = true) (hkey : env.priv_key_found = true)
    (hlen : buffer.length ≠ env.signature_len) :
    vcard_emul_rsa_op env fx buffer = (.dataInvalid, buffer, fx) := by
  simp [vcard_emul_rsa_op, hinit, hkey, hlen]

/-- Claim C2 witness: a concrete environment with signature length 4
and a 3-byte buffer. -/
theorem rsa_op_length_mismatch_witness :
    vcard_emul_rsa_op
      ⟨true, true, 4, true, fun _ => some [7, 7, 7, 7], .badData,
       fun _ => some [8, 8, 8, 8], .badData, fun _ => some [9], .badData⟩
      .VCardEmulUnknown [1, 2, 3]
      = (.dataInvalid, [1, 2, 3], .VCardEmulUnknown) :=
  rsa_op_length_mismatch _ _ _ rfl rfl (by decide)

/-- With the init, key and length guards satisfied, `vcard_emul_rsa_op`
is the raw-attempt stage. -/
theorem vcard_emul_rsa_op_eval (env : RsaEnv) (fx : VCardEmulTriState) (buffer : List Nat)
    (hinit : env.nss_emul_init = true) (hkey : env.priv_key_found = true)
    (hlen : buffer.length = env.signature_len) :
    vcard_emul_rsa_op env fx buffer = rsaOpRaw env fx buffer := by
  simp [vcard_emul_rsa_op, hinit, hkey, hlen]

/-- The raw X509 attempt is skipped (mechanism absent or tri-state
`VCardEmulTrue`) or falls through (tri-state `VCardEmulUnknown` and the
raw decrypt fails); in all these cases control reaches the PKCS
paths. -/
theorem rsaOpRaw_fallthrough (env : RsaEnv) (fx : VCardEmulTriState) (buffer : List Nat)
    (h : env.does_mechanism_x509 = false ∨ fx = .VCardEmulTrue ∨
         (fx = .VCardEmulUnknown ∧ env.priv_decrypt_raw buffer = none)) :
    rsaOpRaw env fx buffer = rsaOpPkcs env fx buffer := by
  rcases h with h | h | ⟨h1, h2⟩
  · simp [rsaOpRaw, h]
  · simp [rsaOpRaw, h]
  · subst h1; simp [rsaOpRaw, h2]

/-- Dropping the reconstructed pad (length `P`, at least 3) from the
rebuilt PKCS block leaves exactly the recovered payload. -/
theorem pkcs1_reconstruction_drop (P : Nat) (bp : List Nat) (h : 3 ≤ P) :
    (0 :: 2 :: (List.replicate (P - 3) 3 ++ 0 :: bp)).drop P = bp := by
  have hform : 0 :: 2 :: (List.replicate (P - 3) 3 ++ 0 :: bp)
      = (0 :: 2 :: (List.replicate (P - 3) 3 ++ [0])) ++ bp := by
    simp
  rw [hform]
  exact List.drop_left' (by simp; omega)

/-- Claim C1: in the deciphering fallback (raw primitive unavailable or
failed with tri-state Unknown, buffer not a PKCS number 1 signature
block), the emulator PKCS-decrypts the buffer; with
`padLen = bufferLength - recoveredLength` it returns GeneralError
whenever `padLen < 4`, and otherwise rewrites the buffer as
`00 02 <padLen-3 filler bytes> 00 <payload>`, so the final
`recoveredLength` bytes of the output equal the payload and success is
never returned while `padLen < 4`. -/
theorem rsa_op_decrypt_fallback (env : RsaEnv) (fx : VCardEmulTriState)
    (buffer payload : List Nat)
    (hinit : env.nss_emul_init = true) (hkey : env.priv_key_found = true)
    (hlen : buffer.length = env.signature_len)
    (hraw : env.does_mechanism_x509 = false ∨ fx = .VCardEmulTrue ∨
            (fx = .VCardEmulUnknown ∧ env.priv_decrypt_raw buffer = none))
    (hsig : pkcs1SigPayload buffer = none)
    (hdec : env.priv_decrypt_pkcs1 buffer = some payload) :
    (buffer.length - payload.length < 4 →
      vcard_emul_rsa_op env fx buffer = (.generalError, buffer, fx)) ∧
    (4 ≤ buffer.length - payload.length →
      vcard_emul_rsa_op env fx buffer =
        (.success,
         0 :: 2 :: (List.replicate (buffer.length - payload.length - 3) 3 ++ 0 :: payload),
         .VCardEmulTrue) ∧
      (vcard_emul_rsa_op env fx buffer).2.1.drop (buffer.length - payload.length)
        = payload) := by
  have hreduce : vcard_emul_rsa_op env fx buffer = rsaOpDecrypt env fx buffer := by
    rw [vcard_emul_rsa_op_eval env fx buffer hinit hkey hlen,
        rsaOpRaw_fallthrough env fx buffer hraw]
    simp [rsaOpPkcs, hsig]
  constructor
  · intro hlt
    rw [hreduce]
    simp [rsaOpDecrypt, hdec, hlt]
  · intro hge
    have hnlt : ¬ (buffer.length - payload.length < 4) := by omega
    refine ⟨?_, ?_⟩
    · rw [hreduce]; simp [rsaOpDecrypt, hdec, hnlt]
    · rw [hreduce]
      simp only [rsaOpDecrypt, hdec]
      simp only [hnlt, if_false]
      exact pkcs1_reconstruction_drop _ _ (by omega)

/-- Claim C1 witness: an 8-byte buffer that is not a signature block,
a provider without the raw mechanism, and a recovered 4-byte payload
(`padLen = 4`). -/
theorem rsa_op_decrypt_fallback_witness :
    vcard_emul_rsa_op
      ⟨true, true, 8, false, fun _ => none, .badData, fun _ => none, .badData,
       fun _ => some [9, 9, 9, 9], .badData⟩
      .VCardEmulUnknown [5, 5, 5, 5, 5, 5, 5, 5]
      = (.success, [0, 2, 3, 0, 9, 9, 9, 9], .VCardEmulTrue) ∧
    (vcard_emul_rsa_op
      ⟨true, true, 8, false, fun _ => none, .badData, fun _ => none, .badData,
       fun _ => some [9, 9, 9, 9], .badData⟩
      .VCardEmulUnknown [5, 5, 5, 5, 5, 5, 5, 5]).2.1.drop 4 = [9, 9, 9, 9] := by
  have h := rsa_op_decrypt_fallback
    ⟨true, true, 8, false, fun _ => none, .badData, fun _ => none, .badData,
     fun _ => some [9, 9, 9, 9], .badData⟩
    .VCardEmulUnknown [5, 5, 5, 5, 5, 5, 5, 5] [9, 9, 9, 9]
    rfl rfl rfl (Or.inl rfl) rfl rfl
  exact h.2 (by decide)

/-- Claim C3: the tri-state is authoritative once set.  With
`VCardEmulTrue` the raw attempt is skipped entirely (the result does
not depend on the raw-decrypt primitive, the mechanism flag or the raw
error, so no re-probe and no later raw-path success can occur, and the
tri-state stays `VCardEmulTrue`); with `VCardEmulFalse` a raw-attempt
failure is returned as the mapped provider error instead of falling
through to the padding-emulation paths. -/
theorem rsa_op_tri_state_memoized (env : RsaEnv) (buffer : List Nat)
    (f : List Nat → Option (List Nat)) (e : NssError) (m : Bool)
    (hinit : env.nss_emul_init = true) (hkey : env.priv_key_found = true)
    (hlen : buffer.length = env.signature_len)
    (hmech : env.does_mechanism_x509 = true)
    (hraw : env.priv_decrypt_raw buffer = none) :
    vcard_emul_rsa_op
        { env with priv_decrypt_raw := f, raw_error := e, does_mechanism_x509 := m }
        .VCardEmulTrue buffer
      = vcard_emul_rsa_op env .VCardEmulTrue buffer ∧
    (vcard_emul_rsa_op env .VCardEmulTrue buffer).2.2 = .VCardEmulTrue ∧
    vcard_emul_rsa_op env .VCardEmulFalse buffer
      = (vcard_emul_map_error env.raw_error, buffer, .VCardEmulFalse) := by
  have h1 : vcard_emul_rsa_op env .VCardEmulTrue buffer
      = rsaOpPkcs env .VCardEmulTrue buffer := by
    rw [vcard_emul_rsa_op_eval env _ buffer hinit hkey hlen]
    exact rsaOpRaw_fallthrough env _ buffer (Or.inr (Or.inl rfl))
  have h2 : vcard_emul_rsa_op
      { env with priv_decrypt_raw := f, raw_error := e, does_mechanism_x509 := m }
      .VCardEmulTrue buffer
      = rsaOpPkcs { env with priv_decrypt_raw := f, raw_error := e,
                             does_mechanism_x509 := m } .VCardEmulTrue buffer := by
    rw [vcard_emul_rsa_op_eval
          { env with priv_decrypt_raw := f, raw_error := e, does_mechanism_x509 := m }
          .VCardEmulTrue buffer hinit hkey hlen]
    exact rsaOpRaw_fallthrough _ _ buffer (Or.inr (Or.inl rfl))
  refine ⟨?_, ?_, ?_⟩
  · rw [h1, h2]
    rfl
  · rw [h1]
    unfold rsaOpPkcs
    rcases hp : pkcs1SigPayload buffer with _ | hash
    · unfold rsaOpDecrypt
      rcases hd : env.priv_decrypt_pkcs1 buffer with _ | bp
      · rfl
      · by_cases hlt : buffer.length - bp.length < 4 <;> simp [hlt]
    · rcases hs : env.sign hash with _ | sig <;> simp [hs]
  · rw [vcard_emul_rsa_op_eval env _ buffer hinit hkey hlen]
    simp [rsaOpRaw, hmech, hraw]

/-- Claim C3 witness: a 4-byte buffer, a provider whose raw mechanism
is advertised but whose raw decrypt fails with a memory error. -/
theorem rsa_op_tri_state_memoized_witness :
    vcard_emul_rsa_op
      { nss_emul_init := true, priv_key_found := true, signature_len := 4,
        does_mechanism_x509 := false,
        priv_decrypt_raw := fun _ => some [1, 2, 3, 4], raw_error := .badData,
        sign := fun _ => some [8, 8, 8, 8], sign_error := .badData,
        priv_decrypt_pkcs1 := fun _ => some [9], pkcs1_error := .badData }
      .VCardEmulTrue [5, 5, 5, 5]
      = vcard_emul_rsa_op
      ⟨true, true, 4, true, fun _ => none, .noMemory,
       fun _ => some [8, 8, 8, 8], .badData, fun _ => some [9], .badData⟩
      .VCardEmulTrue [5, 5, 5, 5] ∧
    (vcard_emul_rsa_op
      ⟨true, true, 4, true, fun _ => none, .noMemory,
       fun _ => some [8, 8, 8, 8], .badData, fun _ => some [9], .badData⟩
      .VCardEmulTrue [5, 5, 5, 5]).2.2 = .VCardEmulTrue ∧
    vcard_emul_rsa_op
      ⟨true, true, 4, true, fun _ => none, .noMemory,
       fun _ => some [8, 8, 8, 8], .badData, fun _ => some [9], .badData⟩
      .VCardEmulFalse [5, 5, 5, 5]
      = (.memoryFailure, [5, 5, 5, 5], .VCardEmulFalse) :=
  rsa_op_tri_state_memoized
    ⟨true, true, 4, true, fun _ => none, .noMemory,
     fun _ => some [8, 8, 8, 8], .badData, fun _ => some [9], .badData⟩
    [5, 5, 5, 5] (fun _ => some [1, 2, 3, 4]) .badData false
    rfl rfl rfl rfl rfl

/-- Skipping a (possibly empty) run of `0xff` that ends at a `0` byte
returns the bytes after that `0`. -/
theorem pkcs1StripFF_replicate (k : Nat) (tail : List Nat) :
    pkcs1StripFF (List.replicate k 0xff ++ 0 :: tail) = some tail := by
  induction k with
  | zero => simp [pkcs1StripFF]
  | succ n ih => simpa [pkcs1StripFF] using ih

/-- Claim C9: the signature-pattern scan accepts an empty run of
`0xff`: any buffer of shape `00 01 <k bytes of ff> 00 <tail>` (also
with `k = 0`, i.e. a buffer beginning `00 01 00`) is treated as a
signature block, and the sign operation covers exactly the bytes after
the `00` separator. -/
theorem rsa_op_sig_accepts_empty_ff (env : RsaEnv) (fx : VCardEmulTriState)
    (k : Nat) (tail buffer : List Nat)
    (hbuf : buffer = 0 :: 1 :: (List.replicate k 0xff ++ 0 :: tail))
    (hinit : env.nss_emul_init = true) (hkey : env.priv_key_found = true)
    (hlen : buffer.length = env.signature_len)
    (hraw : env.does_mechanism_x509 = false ∨ fx = .VCardEmulTrue ∨
            (fx = .VCardEmulUnknown ∧ env.priv_decrypt_raw buffer = none)) :
    pkcs1SigPayload buffer = some tail ∧
    vcard_emul_rsa_op env fx buffer =
      (match env.sign tail with
       | some sig => (.success, memcpyList buffer sig sig.length, .VCardEmulTrue)
       | none => (vcard_emul_map_error env.sign_error, buffer, fx)) := by
  have hpay : pkcs1SigPayload buffer = some tail := by
    rw [hbuf]
    show pkcs1StripFF (List.replicate k 0xff ++ 0 :: tail) = some tail
    exact pkcs1StripFF_replicate k tail
  refine ⟨hpay, ?_⟩
  rw [vcard_emul_rsa_op_eval env fx buffer hinit hkey hlen,
      rsaOpRaw_fallthrough env fx buffer hraw]
  unfold rsaOpPkcs
  rw [hpay]

/-- Claim C9 witness: the buffer `00 01 00 07` (empty `0xff` run) is
accepted and the byte `07` after the separator is what gets signed. -/
theorem rsa_op_sig_accepts_empty_ff_witness :
    pkcs1SigPayload [0, 1, 0, 7] = some [7] ∧
    vcard_emul_rsa_op
      ⟨true, true, 4, false, fun _ => none, .badData,
       fun h => if h = [7] then some [4, 4, 4, 4] else none, .badData,
       fun _ => none, .badData⟩
      .VCardEmulUnknown [0, 1, 0, 7]
      = (.success, [4, 4, 4, 4], .VCardEmulTrue) :=
  rsa_op_sig_accepts_empty_ff
    ⟨true, true, 4, false, fun _ => none, .badData,
     fun h => if h = [7] then some [4, 4, 4, 4] else none, .badData,
     fun _ => none, .badData⟩
    .VCardEmulUnknown 0 [7] [0, 1, 0, 7] rfl rfl rfl rfl (Or.inl rfl)

/-- Zeroing the leading `0xff` run distributes over a prepended
`0xff` block. -/
theorem zeroLeadingFF_replicate_append (k : Nat) (l : List Nat) :
    zeroLeadingFF (List.replicate k 0xff ++ l)
      = List.replicate k 0 ++ zeroLeadingFF l := by
  induction k with
  | zero => simp
  | succ n ih => simpa [zeroLeadingFF, List.replicate_succ] using ih

/-- A list that does not start with `0xff` is left unchanged. -/
theorem zeroLeadingFF_no_ff (l : List Nat) (h : l = [] ∨ l.head? ≠ some 0xff) :
    zeroLeadingFF l = l := by
  rcases h with h | h
  · simp [h, zeroLeadingFF]
  · cases l with
    | nil => rfl
    | cons b rest =>
      have hb : b ≠ 0xff := by
        intro hb
        exact h (by simp [hb])
      simp [zeroLeadingFF, hb]

/-- Claim C6: `vcard_emul_login` turns every trailing `0xff` padding
byte of the PIN into `0x00` before submission, forces a logout before
authenticating, and wipes the heap PIN buffer right after submission
on both the success and the failure path (the recorded event order is
logout, authenticate, zeroize, and that order does not depend on the
authentication outcome).  In general, a PIN `p ++ ff^k` whose stem
does not end in `0xff` is submitted as `p ++ 0^k` (plus the string
terminator); in particular PIN `31 32 33 34 ff ff` is submitted as
`31 32 33 34 00 00`. -/
theorem login_normalizes_and_zeroes (env : LoginEnv) (pin : List Nat)
    (hinit : env.nss_emul_init = true) :
    (vcard_emul_login env pin).2.1 =
      [LoginEvent.logoutCall,
       LoginEvent.authenticateCall (stripTrailingFF pin ++ [0]),
       LoginEvent.zeroizeCall (List.replicate (pin.length + 1) 0)] ∧
    (∀ (p : List Nat) (k : Nat), p = [] ∨ p.getLast? ≠ some 0xff →
      stripTrailingFF (p ++ List.replicate k 0xff) = p ++ List.replicate k 0) ∧
    stripTrailingFF [0x31, 0x32, 0x33, 0x34, 0xff, 0xff]
      = [0x31, 0x32, 0x33, 0x34, 0, 0] := by
  refine ⟨?_, ?_, by decide⟩
  · simp [vcard_emul_login, hinit]
  · intro p k hp
    unfold stripTrailingFF
    rw [List.reverse_append, List.reverse_replicate,
        zeroLeadingFF_replicate_append, zeroLeadingFF_no_ff]
    · rw [List.reverse_append, List.reverse_replicate, List.reverse_reverse]
    · rcases hp with hp | hp
      · exact Or.inl (by simp [hp])
      · refine Or.inr ?_
        rwa [List.head?_reverse]

/-- Claim C6 witness: the scenario PIN `31 32 33 34 ff ff`. -/
theorem login_normalizes_and_zeroes_witness :
    (vcard_emul_login ⟨true, fun _ => true⟩ [0x31, 0x32, 0x33, 0x34, 0xff, 0xff]).2.1 =
      [LoginEvent.logoutCall,
       LoginEvent.authenticateCall [0x31, 0x32, 0x33, 0x34, 0, 0, 0],
       LoginEvent.zeroizeCall [0, 0, 0, 0, 0, 0, 0]] ∧
    stripTrailingFF [0x31, 0x32, 0x33, 0x34, 0xff, 0xff]
      = [0x31, 0x32, 0x33, 0x34, 0, 0] := by
  have h := login_normalizes_and_zeroes ⟨true, fun _ => true⟩
    [0x31, 0x32, 0x33, 0x34, 0xff, 0xff] rfl
  exact ⟨by rw [h.1]; decide, h.2.2⟩

/-- Claim C10: `vcard_emul_login` never writes to the caller PIN
buffer: normalization and post-submission zeroing happen on the heap
copy only (visible in the recorded events), and the caller buffer is
byte-for-byte unchanged on return, for every environment, PIN and
outcome. -/
theorem login_preserves_caller_pin (env : LoginEnv) (pin : List Nat) :
    (vcard_emul_login env pin).2.2 = pin := by
  unfold vcard_emul_login
  by_cases h : env.nss_emul_init <;> simp [h]

/-- Claim C8: when the subsystem is not initialized,
`vcard_emul_is_logged_in` returns the ConditionNotSatisfied status
word 0x6985 instead of 0 or 1, so a caller reading the `int` as a
boolean sees the uninitialized subsystem as logged in. -/
theorem is_logged_in_uninitialized (need_login pk11_is_logged_in : Bool) :
    vcard_emul_is_logged_in false need_login pk11_is_logged_in
        = VCARD7816_STATUS_ERROR_CONDITION_NOT_SATISFIED_SW ∧
    VCARD7816_STATUS_ERROR_CONDITION_NOT_SATISFIED_SW = 0x6985 ∧
    vcard_emul_is_logged_in false need_login pk11_is_logged_in ≠ 0 ∧
    vcard_emul_is_logged_in false need_login pk11_is_logged_in ≠ 1 := by
  refine ⟨rfl, rfl, ?_, ?_⟩ <;>
    simp [vcard_emul_is_logged_in, VCARD7816_STATUS_ERROR_CONDITION_NOT_SATISFIED_SW]

/-- Claim C4: in the hot-plug loop, a present slot whose series equals
the stored series issues no card event and rebuilds no card; if the
series differs and a card was previously present, the removal (insert
of the NULL card) is signaled strictly before the freshly mirrored
card is inserted, and the stored series and presence flag are
updated. -/
theorem event_thread_present_series (slot_series : Int) (mirrored : Option Nat)
    (r : VReaderEmul) :
    (slot_series = r.series →
      vcard_emul_event_thread_present slot_series mirrored r
        = ({ r with series := slot_series, present := true }, [])) ∧
    (slot_series ≠ r.series → r.present = true →
      vcard_emul_event_thread_present slot_series mirrored r
        = ({ r with series := slot_series, present := true },
           [ReaderEvent.insertCard none, ReaderEvent.mirrorCall,
            ReaderEvent.insertCard mirrored])) := by
  constructor
  · intro h
    simp [vcard_emul_event_thread_present, h]
  · intro h hp
    simp [vcard_emul_event_thread_present, h, hp]

/-- Claim C4 witness: stored series 5 with slot series 5 is a no-op;
slot series 6 with a previously present card signals removal before
the insert of the mirrored card. -/
theorem event_thread_present_series_witness :
    vcard_emul_event_thread_present 5 (some 1) ⟨true, 5, none⟩
      = (⟨true, 5, none⟩, []) ∧
    vcard_emul_event_thread_present 6 (some 1) ⟨true, 5, none⟩
      = (⟨true, 6, none⟩,
         [ReaderEvent.insertCard none, ReaderEvent.mirrorCall,
          ReaderEvent.insertCard (some 1)]) :=
  ⟨(event_thread_present_series 5 (some 1) ⟨true, 5, none⟩).1 rfl,
   (event_thread_present_series 6 (some 1) ⟨true, 5, none⟩).2 (by decide) rfl⟩

/-- Claim C7: `vcard_emul_force_card_insert` fails when uninitialized
or a card is already present; a reader holding a cached soft card
reinserts a new reference to exactly that cached card; a hardware
reader (no cached card) whose slot is physically absent fails without
mutating reader state; otherwise it re-mirrors from the slot and
inserts the mirrored card. -/
theorem force_card_insert_cases (nss_emul_init card_present slot_is_present : Bool)
    (mirrored : Option Nat) (r : VReaderEmul) :
    (nss_emul_init = false ∨ card_present = true →
      vcard_emul_force_card_insert nss_emul_init card_present slot_is_present mirrored r
        = (.fail, [], r)) ∧
    (nss_emul_init = true → card_present = false → ∀ c, r.saved_vcard = some c →
      vcard_emul_force_card_insert nss_emul_init card_present slot_is_present mirrored r
        = (.ok, [ReaderEvent.insertCard (some c)], r)) ∧
    (nss_emul_init = true → card_present = false → r.saved_vcard = none →
      slot_is_present = false →
      vcard_emul_force_card_insert nss_emul_init card_present slot_is_present mirrored r
        = (.fail, [], r)) ∧
    (nss_emul_init = true → card_present = false → r.saved_vcard = none →
      slot_is_present = true →
      vcard_emul_force_card_insert nss_emul_init card_present slot_is_present mirrored r
        = (.ok, [ReaderEvent.mirrorCall, ReaderEvent.insertCard mirrored], r)) := by
  refine ⟨?_, ?_, ?_, ?_⟩
  · rintro (h | h) <;> simp [vcard_emul_force_card_insert, h]
  · intro h1 h2 c hc
    simp [vcard_emul_force_card_insert, h1, h2, hc]
  · intro h1 h2 hc h3
    simp [vcard_emul_force_card_insert, h1, h2, hc, h3]
  · intro h1 h2 hc h3
    simp [vcard_emul_force_card_insert, h1, h2, hc, h3]

/-- Claim C7 witness: the four concrete scenarios, including the
hardware reader whose slot reports absent. -/
theorem force_card_insert_cases_witness :
    vcard_emul_force_card_insert true true true (some 3) ⟨false, 0, none⟩
      = (.fail, [], ⟨false, 0, none⟩) ∧
    vcard_emul_force_card_insert true false true (some 3) ⟨false, 0, some 9⟩
      = (.ok, [ReaderEvent.insertCard (some 9)], ⟨false, 0, some 9⟩) ∧
    vcard_emul_force_card_insert true false false (some 3) ⟨false, 0, none⟩
      = (.fail, [], ⟨false, 0, none⟩) ∧
    vcard_emul_force_card_insert true false true (some 3) ⟨false, 0, none⟩
      = (.ok, [ReaderEvent.mirrorCall, ReaderEvent.insertCard (some 3)],
         ⟨false, 0, none⟩) :=
  ⟨(force_card_insert_cases true true true (some 3) ⟨false, 0, none⟩).1 (Or.inr rfl),
   (force_card_insert_cases true false true (some 3) ⟨false, 0, some 9⟩).2.1
     rfl rfl 9 rfl,
   (force_card_insert_cases true false false (some 3) ⟨false, 0, none⟩).2.2.1
     rfl rfl rfl rfl,
   (force_card_insert_cases true false true (some 3) ⟨false, 0, none⟩).2.2.2
     rfl rfl rfl rfl⟩

/-- Swapping the arguments of the binary comparison swaps the
ordering. -/
theorem secitemCompare_swap (a b : List Nat) :
    secitemCompare b a = (secitemCompare a b).swap := by
  induction a generalizing b with
  | nil => cases b <;> rfl
  | cons x xs ih =>
    cases b with
    | nil => rfl
    | cons y ys =>
      by_cases h1 : x < y
      · have h2 : ¬ y < x := by omega
        simp [secitemCompare, h1, h2, Ordering.swap]
      · by_cases h2 : y < x
        · simp [secitemCompare, h1, h2, Ordering.swap]
        · simp [secitemCompare, h1, h2, ih]

/-- The binary comparison returns `eq` exactly on equal lists. -/
theorem secitemCompare_eq_iff (a b : List Nat) :
    secitemCompare a b = .eq ↔ a = b := by
  induction a generalizing b with
  | nil => cases b <;> simp [secitemCompare]
  | cons x xs ih =>
    cases b with
    | nil => simp [secitemCompare]
    | cons y ys =>
      by_cases h1 : x < y
      · have : x ≠ y := by omega
        simp [secitemCompare, h1, this]
      · by_cases h2 : y < x
        · have : x ≠ y := by omega
          simp [secitemCompare, h1, h2, this]
        · have hxy : x = y := by omega
          simp [secitemCompare, h1, h2, hxy, ih]

/-- The binary comparison is transitive in its `lt` result. -/
theorem secitemCompare_lt_trans {a b c : List Nat}
    (h1 : secitemCompare a b = .lt) (h2 : secitemCompare b c = .lt) :
    secitemCompare a c = .lt := by
  induction a generalizing b c with
  | nil =>
    cases c with
    | nil =>
      cases b with
      | nil => simp [secitemCompare] at h2
      | cons y ys => simp [secitemCompare] at h2
    | cons z zs => simp [secitemCompare]
  | cons x xs ih =>
    cases b with
    | nil => simp [secitemCompare] at h1
    | cons y ys =>
      cases c with
      | nil => simp [secitemCompare] at h2
      | cons z zs =>
        by_cases hxy : x < y
        · by_cases hyz : y < z
          · have hxz : x < z := by omega
            simp [secitemCompare, hxz]
          · by_cases hzy : z < y
            · simp [secitemCompare, hyz, hzy] at h2
            · have hyz2 : y = z := by omega
              have hxz : x < z := by omega
              simp [secitemCompare, hxz]
        · by_cases hyx : y < x
          · simp [secitemCompare, hxy, hyx] at h1
          · have hxy2 : x = y := by omega
            subst hxy2
            simp only [secitemCompare, if_neg hxy, if_neg hyx] at h1
            by_cases hyz : x < z
            · simp [secitemCompare, hyz]
            · by_cases hzy : z < x
              · simp [secitemCompare, hyz, hzy] at h2
              · simp only [secitemCompare, if_neg hyz, if_neg hzy] at h2 ⊢
                exact ih h1 h2

/-- A strict comparison composed with a non-descending one stays
strict. -/
theorem secitemCompare_lt_of_lt_of_le {a b c : List Nat}
    (h1 : secitemCompare a b = .lt) (h2 : secitemCompare b c ≠ .gt) :
    secitemCompare a c = .lt := by
  rcases h : secitemCompare b c with _ | _ | _
  · exact secitemCompare_lt_trans h1 h
  · rw [(secitemCompare_eq_iff b c).1 h] at h1
    exact h1
  · exact absurd h h2

/-- If the comparison does not return `lt`, the swapped comparison
does not return `gt`. -/
theorem secitemCompare_le_of_not_lt {a b : List Nat}
    (h : secitemCompare a b ≠ .lt) : secitemCompare b a ≠ .gt := by
  rw [secitemCompare_swap]
  rcases hc : secitemCompare a b with _ | _ | _
  · exact absurd hc h
  · simp [Ordering.swap]
  · simp [Ordering.swap]

/-- Inserting an entry permutes consing it. -/
theorem mirror_insert_perm (x : List Nat × List Nat)
    (l : List (List Nat × List Nat)) : (mirror_insert x l).Perm (x :: l) := by
  induction l with
  | nil => exact List.Perm.refl _
  | cons y ys ih =>
    by_cases h : secitemCompare x.1 y.1 = .lt
    · simp [mirror_insert, h]
    · simp only [mirror_insert, h, if_false]
      exact (ih.cons y).trans (List.Perm.swap x y ys)

/-- The skipping insertion fold permutes the accumulator followed by
the readable entries. -/
theorem mirror_fold_perm (l : List (List Nat × List Nat))
    (acc : List (List Nat × List Nat)) :
    (l.foldl (fun a e => mirror_insert e a) acc).Perm (acc ++ l) := by
  induction l generalizing acc with
  | nil => simp
  | cons e es ih =>
    simp only [List.foldl_cons]
    refine (ih (mirror_insert e acc)).trans ?_
    refine (((mirror_insert_perm e acc).append_right es).trans ?_)
    exact List.perm_middle.symm

/-- `vcard_emul_mirror_card` is the plain insertion fold over the
entries that survive the per-object skip checks. -/
theorem mirror_card_eq_fold (objs : List MirrorObj) :
    vcard_emul_mirror_card objs
      = (objs.filterMap mirror_entry).foldl (fun a e => mirror_insert e a) [] := by
  suffices h : ∀ (objs : List MirrorObj) (acc : List (List Nat × List Nat)),
      objs.foldl
        (fun acc o =>
          match mirror_entry o with
          | some e => mirror_insert e acc
          | none => acc) acc
        = (objs.filterMap mirror_entry).foldl (fun a e => mirror_insert e a) acc by
    exact h objs []
  intro objs
  induction objs with
  | nil => intro acc; rfl
  | cons o os ih =>
    intro acc
    rcases he : mirror_entry o with _ | e <;>
      simp [List.filterMap_cons, he, ih]

/-- Inserting into a non-descending list keeps it non-descending. -/
theorem mirror_insert_pairwise (x : List Nat × List Nat)
    (l : List (List Nat × List Nat)) (hl : l.Pairwise mirrorKeyLe) :
    (mirror_insert x l).Pairwise mirrorKeyLe := by
  induction l with
  | nil => simp [mirror_insert]
  | cons y ys ih =>
    rcases List.pairwise_cons.1 hl with ⟨hy, hys⟩
    by_cases h : secitemCompare x.1 y.1 = .lt
    · simp only [mirror_insert, h, if_true]
      refine List.pairwise_cons.2 ⟨?_, hl⟩
      intro z hz
      rcases List.mem_cons.1 hz with hz | hz
      · subst hz
        simp [mirrorKeyLe, h]
      · intro hgt
        rw [secitemCompare_lt_of_lt_of_le h (hy z hz)] at hgt
        exact Ordering.noConfusion hgt
    · simp only [mirror_insert, h, if_false]
      refine List.pairwise_cons.2 ⟨?_, ih hys⟩
      intro z hz
      rcases List.mem_cons.1 ((mirror_insert_perm x ys).mem_iff.1 hz) with hz | hz
      · subst hz
        exact secitemCompare_le_of_not_lt h
      · exact hy z hz

/-- The insertion fold of the mirror loop produces a non-descending
list from a non-descending accumulator. -/
theorem mirror_fold_pairwise (l : List (List Nat × List Nat))
    (acc : List (List Nat × List Nat)) (hacc : acc.Pairwise mirrorKeyLe) :
    (l.foldl (fun a e => mirror_insert e a) acc).Pairwise mirrorKeyLe := by
  induction l generalizing acc with
  | nil => exact hacc
  | cons e es ih =>
    simp only [List.foldl_cons]
    exact ih _ (mirror_insert_pairwise e acc hacc)

/-- A non-descending list whose identifiers are distinct is strictly
ascending. -/
theorem mirror_pairwise_lt_of_le_nodup (l : List (List Nat × List Nat))
    (hle : l.Pairwise mirrorKeyLe) (hnd : (l.map Prod.fst).Nodup) :
    l.Pairwise mirrorKeyLt := by
  have hne : l.Pairwise (fun x y => x.1 ≠ y.1) := List.pairwise_map.1 hnd
  refine (hle.and hne).imp ?_
  intro x y hxy
  rcases hc : secitemCompare x.1 y.1 with _ | _ | _
  · exact hc
  · exact absurd ((secitemCompare_eq_iff x.1 y.1).1 hc) hxy.2
  · exact absurd hc hxy.1

/-- Claim C5: `vcard_emul_mirror_card` places each discovered
certificate at the position given by ascending binary comparison of
the identifier attributes: the built list is a permutation of the
readable entries, it is strictly ascending in the identifiers whenever
they are distinct, any two enumeration orders of the same objects
build the same list (so two mirrors of an unchanged slot produce
identical orderings), and identifiers B, A, C come out ordered
A, B, C. -/
theorem mirror_card_sorted_deterministic (objs1 objs2 : List MirrorObj)
    (hperm : objs1.Perm objs2)
    (hnd : ((objs1.filterMap mirror_entry).map Prod.fst).Nodup) :
    (vcard_emul_mirror_card objs1).Perm (objs1.filterMap mirror_entry) ∧
    (vcard_emul_mirror_card objs1).Pairwise mirrorKeyLt ∧
    vcard_emul_mirror_card objs1 = vcard_emul_mirror_card objs2 ∧
    vcard_emul_mirror_card
        [⟨some [11], some [66], true⟩, ⟨some [12], some [65], true⟩,
         ⟨some [13], some [67], true⟩]
      = [([65], [12]), ([66], [11]), ([67], [13])] := by
  have hp1 : (vcard_emul_mirror_card objs1).Perm (objs1.filterMap mirror_entry) := by
    rw [mirror_card_eq_fold]
    simpa using mirror_fold_perm (objs1.filterMap mirror_entry) []
  have hp2 : (vcard_emul_mirror_card objs2).Perm (objs2.filterMap mirror_entry) := by
    rw [mirror_card_eq_fold]
    simpa using mirror_fold_perm (objs2.filterMap mirror_entry) []
  have hle1 : (vcard_emul_mirror_card objs1).Pairwise mirrorKeyLe := by
    rw [mirror_card_eq_fold]
    exact mirror_fold_pairwise _ [] List.Pairwise.nil
  have hle2 : (vcard_emul_mirror_card objs2).Pairwise mirrorKeyLe := by
    rw [mirror_card_eq_fold]
    exact mirror_fold_pairwise _ [] List.Pairwise.nil
  have hpf : (objs1.filterMap mirror_entry).Perm (objs2.filterMap mirror_entry) :=
    hperm.filterMap mirror_entry
  have hnd1 : ((vcard_emul_mirror_card objs1).map Prod.fst).Nodup :=
    ((hp1.map Prod.fst).nodup_iff).2 hnd
  have hnd2 : ((vcard_emul_mirror_card objs2).map Prod.fst).Nodup :=
    ((hp2.map Prod.fst).nodup_iff).2 (((hpf.map Prod.fst).nodup_iff).1 hnd)
  have hlt1 := mirror_pairwise_lt_of_le_nodup _ hle1 hnd1
  have hlt2 := mirror_pairwise_lt_of_le_nodup _ hle2 hnd2
  have hmm : (vcard_emul_mirror_card objs1).Perm (vcard_emul_mirror_card objs2) :=
    (hp1.trans hpf).trans hp2.symm
  refine ⟨hp1, hlt1, ?_, by decide⟩
  have hanti : ∀ (a b : List Nat × List Nat), mirrorKeyLt a b → mirrorKeyLt b a → a = b := by
    intro a b h1 h2
    have h2e : secitemCompare b.1 a.1 = .lt := h2
    have hs := secitemCompare_swap a.1 b.1
    rw [h1] at hs
    rw [hs] at h2e
    exact absurd h2e (by decide)
  exact @List.eq_of_perm_of_sorted _ mirrorKeyLt ⟨hanti⟩ _ _ hmm hlt1 hlt2

/-- Claim C5 witness: objects with identifiers 66, 65, 67 (B, A, C) in
two different enumeration orders. -/
theorem mirror_card_sorted_deterministic_witness :
    (vcard_emul_mirror_card
        [⟨some [11], some [66], true⟩, ⟨some [12], some [65], true⟩,
         ⟨some [13], some [67], true⟩]).Perm
      (([⟨some [11], some [66], true⟩, ⟨some [12], some [65], true⟩,
         ⟨some [13], some [67], true⟩] : List MirrorObj).filterMap mirror_entry) ∧
    (vcard_emul_mirror_card
        [⟨some [11], some [66], true⟩, ⟨some [12], some [65], true⟩,
         ⟨some [13], some [67], true⟩]).Pairwise mirrorKeyLt ∧
    vcard_emul_mirror_card
        [⟨some [11], some [66], true⟩, ⟨some [12], some [65], true⟩,
         ⟨some [13], some [67], true⟩]
      = vcard_emul_mirror_card
        [⟨some [13], some [67], true⟩, ⟨some [12], some [65], true⟩,
         ⟨some [11], some [66], true⟩] ∧
    vcard_emul_mirror_card
        [⟨some [11], some [66], true⟩, ⟨some [12], some [65], true⟩,
         ⟨some [13], some [67], true⟩]
      = [([65], [12]), ([66], [11]), ([67], [13])] :=
  mirror_card_sorted_deterministic
    [⟨some [11], some [66], true⟩, ⟨some [12], some [65], true⟩,
     ⟨some [13], some [67], true⟩]
    [⟨some [13], some [67], true⟩, ⟨some [12], some [65], true⟩,
     ⟨some [11], some [66], true⟩]
    (by decide) (by decide)

